import Mathlib

/-!
Shallow embedding of the snake simulation engine (`snake_game.py`).

Conventions of the embedding:
* a grid cell / vector (`pygame.math.Vector2` holding integral values) is a
  pair of integers `Pos := Int × Int`;
* Python's `random.randint(0, n-1)` draws are modelled by an explicit
  sampling oracle `samples : Nat → Pos`: attempt `i` of a spawn call draws
  `x = (samples i).1` and `y = (samples i).2`.  Theorems quantify over all
  oracles, and counterexamples pick a concrete one;
* the nested spawning of construction / `reset()` uses a two-level oracle
  `oracle : Nat → Nat → Pos` (spawn call index ↦ attempt index ↦ cell);
* `pending_spawns` is a Python `int` that the code only increments, or
  decrements under a strict positivity guard, so it is modelled as `Nat`
  (the guard `pending_spawns <= 0` becomes `= 0`);
* rendering, sprite selection and sound playback are external collaborators
  and are not part of the state; `play_crunch_sound` is a fire-and-forget
  side effect and is dropped;
* `self.snake.body[0]` on an empty body raises `IndexError` in Python; the
  embedding uses `List.headD (0, 0)`.  All states the program reaches have a
  body of length ≥ 3, where the two semantics agree.
-/

abbrev Pos : Type := Int × Int

/-- Componentwise vector addition, `Vector2 + Vector2`. -/
def addPos (a b : Pos) : Pos := (a.1 + b.1, a.2 + b.2)

/-- Componentwise negation of a vector (used to phrase "exact opposite heading"). -/
def negPos (a : Pos) : Pos := (-a.1, -a.2)

/-- `Fruit.spawn` rejection-sampling loop (`snake_game.py`, lines 168-174):
`fuel` counts the remaining attempts, `i` indexes the oracle draw, `pos` is the
fruit's current position, kept when every attempt lands on an occupied cell. -/
def Fruit.spawnLoop (occupied : List Pos) (samples : Nat → Pos) : Nat → Nat → Pos → Pos
  | _, 0, pos => pos
  | i, fuel + 1, pos =>
    if samples i ∈ occupied then Fruit.spawnLoop occupied samples (i + 1) fuel pos
    else samples i

/-- `Fruit.spawn(occupied)`: up to `cell_number² + 200` attempts; on success the
sampled cell is returned, otherwise the previous position `pos` is kept. -/
def Fruit.spawn (cellNumber : Nat) (occupied : List Pos) (samples : Nat → Pos)
    (pos : Pos) : Pos :=
  Fruit.spawnLoop occupied samples 0 (cellNumber * cellNumber + 200) pos

/-- The snake's mutable state (`Snake.__init__` / `Snake.reset`): body cells
head-first, current direction, and the deferred-growth flag `new_block`. -/
structure Snake where
  body : List Pos
  direction : Pos
  newBlock : Bool
  deriving DecidableEq, Repr

/-- The state `Snake.__init__` and `Snake.reset` establish. -/
def Snake.init : Snake :=
  { body := [(5, 10), (4, 10), (3, 10)], direction := (0, 0), newBlock := false }

/-- `Snake.move` (lines 72-94): no-op when the direction is `(0,0)`; when
growing, prepend `body[0] + direction` to the whole body and clear the flag;
otherwise prepend `body[:-1][0] + direction` to `body[:-1]`. -/
def Snake.move (s : Snake) : Snake :=
  if s.direction = (0, 0) then s
  else if s.newBlock then
    { s with body := addPos (s.body.headD (0, 0)) s.direction :: s.body,
             newBlock := false }
  else
    { s with body :=
        addPos (s.body.dropLast.headD (0, 0)) s.direction :: s.body.dropLast }

/-- The four arrow keys `handle_key` reacts to; any other key leaves the state
unchanged in the Python `elif` chain and is not modelled. -/
inductive Key where
  | up
  | right
  | down
  | left
  deriving DecidableEq, Repr

/-- The heading each arrow key requests (top-left-origin grid: up is `-y`). -/
def keyDir : Key → Pos
  | Key.up => (0, -1)
  | Key.right => (1, 0)
  | Key.down => (0, 1)
  | Key.left => (-1, 0)

/-- The Python loop `for i, fruit in enumerate(self.fruits): if fruit.pos == head`
of `_check_eat`: index of the first fruit at `target`, starting the count at `i`. -/
def findIdxAux (target : Pos) : List Pos → Nat → Option Nat
  | [], _ => none
  | p :: rest, i => if p = target then some i else findIdxAux target rest (i + 1)

/-- `SnakeGame` state: board side length, clamped fruit target, the snake, the
fruit positions (one entry per `Fruit` instance, in list order), the pending
respawn counter and the terminal flag. -/
structure SnakeGame where
  cellNumber : Nat
  fruitsCount : Nat
  snake : Snake
  fruits : List Pos
  pendingSpawns : Nat
  gameOver : Bool
  deriving DecidableEq, Repr

/-- `SnakeGame._occupied_cells`: snake body cells together with fruit cells
(a Python set; the embedding uses a list, membership-equivalent). -/
def SnakeGame.occupiedCells (g : SnakeGame) : List Pos :=
  g.snake.body ++ g.fruits

/-- `SnakeGame._spawn_one_fruit`: a fresh `Fruit` starts at `(0,0)`, is placed
by `spawn` against the current occupied cells, and is appended. -/
def SnakeGame.spawnOne (g : SnakeGame) (samples : Nat → Pos) : SnakeGame :=
  { g with fruits :=
      g.fruits ++ [Fruit.spawn g.cellNumber g.occupiedCells samples (0, 0)] }

/-- `SnakeGame._check_eat`: if the head sits on some fruit, pop the first such
fruit, set the growth flag and count one pending respawn. -/
def SnakeGame.checkEat (g : SnakeGame) : SnakeGame :=
  match findIdxAux (g.snake.body.headD (0, 0)) g.fruits 0 with
  | none => g
  | some i =>
    { g with fruits := g.fruits.eraseIdx i,
             snake := { g.snake with newBlock := true },
             pendingSpawns := g.pendingSpawns + 1 }

/-- The in-bounds test `0 <= head.x < cell_number and 0 <= head.y < cell_number`. -/
def inBoundsPos (n : Nat) (p : Pos) : Prop :=
  0 ≤ p.1 ∧ p.1 < (n : Int) ∧ 0 ≤ p.2 ∧ p.2 < (n : Int)

instance (n : Nat) (p : Pos) : Decidable (inBoundsPos n p) := by
  unfold inBoundsPos
  infer_instance

/-- `SnakeGame._check_fail`: wall check on the head first, then self-collision
of the head against `body[1:]`. -/
def SnakeGame.checkFail (g : SnakeGame) : SnakeGame :=
  if ¬ inBoundsPos g.cellNumber (g.snake.body.headD (0, 0)) then
    { g with gameOver := true }
  else if g.snake.body.headD (0, 0) ∈ g.snake.body.tail then
    { g with gameOver := true }
  else g

/-- `SnakeGame._process_pending_spawns` at its only call site
(`max_per_update = 1`, so the `while` body runs at most once, and its
`pending_spawns > 0` conjunct is implied by the early return): early return
when no spawn is pending; otherwise spawn one fruit when below the target and
decrement, then drop the whole backlog once the target is reached. -/
def SnakeGame.processPendingSpawns (g : SnakeGame) (samples : Nat → Pos) : SnakeGame :=
  if g.pendingSpawns = 0 then g
  else
    let g1 :=
      if g.fruits.length < g.fruitsCount then
        { g.spawnOne samples with pendingSpawns := g.pendingSpawns - 1 }
      else g
    if g1.fruitsCount ≤ g1.fruits.length then { g1 with pendingSpawns := 0 } else g1

/-- `SnakeGame.update`: no-op once `game_over`; otherwise move, eat-check,
fail-check, then bounded respawn, in that order.  `samples` feeds the (at most
one) spawn this tick. -/
def SnakeGame.update (g : SnakeGame) (samples : Nat → Pos) : SnakeGame :=
  if g.gameOver then g
  else
    SnakeGame.processPendingSpawns
      (SnakeGame.checkFail (SnakeGame.checkEat { g with snake := g.snake.move }))
      samples

/-- `SnakeGame.handle_key`: no-op once `game_over`; each arrow key applies its
heading unless the current heading is its exact opposite. -/
def SnakeGame.handleKey (g : SnakeGame) (k : Key) : SnakeGame :=
  if g.gameOver then g
  else
    match k with
    | Key.up =>
      if g.snake.direction.2 ≠ 1 then
        { g with snake := { g.snake with direction := (0, -1) } }
      else g
    | Key.right =>
      if g.snake.direction.1 ≠ -1 then
        { g with snake := { g.snake with direction := (1, 0) } }
      else g
    | Key.down =>
      if g.snake.direction.2 ≠ -1 then
        { g with snake := { g.snake with direction := (0, 1) } }
      else g
    | Key.left =>
      if g.snake.direction.1 ≠ 1 then
        { g with snake := { g.snake with direction := (-1, 0) } }
      else g

/-- `SnakeGame._spawn_initial_fruits` loop: `k` spawns remaining, spawn call
`i` of the run using oracle row `oracle i`. -/
def SnakeGame.spawnInitialLoop : SnakeGame → (Nat → Nat → Pos) → Nat → Nat → SnakeGame
  | g, _, _, 0 => g
  | g, oracle, i, k + 1 =>
    SnakeGame.spawnInitialLoop (g.spawnOne (oracle i)) oracle (i + 1) k

/-- The state shared by `__init__` (after clamping) and `reset`: a fresh snake,
no fruits, no pending spawns, running, then `fruitsCount` initial spawns. -/
def SnakeGame.fresh (n fc : Nat) (oracle : Nat → Nat → Pos) : SnakeGame :=
  SnakeGame.spawnInitialLoop
    { cellNumber := n, fruitsCount := fc, snake := Snake.init, fruits := [],
      pendingSpawns := 0, gameOver := false } oracle 0 fc

/-- `SnakeGame.__init__(cell_number, fruits_count)`: the fruit target is
`max(1, fruits_count)`. -/
def SnakeGame.new (n : Nat) (fc : Int) (oracle : Nat → Nat → Pos) : SnakeGame :=
  SnakeGame.fresh n (max 1 fc).toNat oracle

/-- `SnakeGame.reset`: snake reset, fruits cleared, counters cleared, then the
initial fruits are spawned again — `fresh` at the stored configuration. -/
def SnakeGame.reset (g : SnakeGame) (oracle : Nat → Nat → Pos) : SnakeGame :=
  SnakeGame.fresh g.cellNumber g.fruitsCount oracle

/-- `SnakeGame.is_game_over`. -/
def SnakeGame.isGameOver (g : SnakeGame) : Bool := g.gameOver

/-- `SnakeGame.get_score`: `max(0, len(body) - 3)`. -/
def SnakeGame.getScore (g : SnakeGame) : Int :=
  max 0 ((g.snake.body.length : Int) - 3)

/-- A sampling oracle that always draws the cell `(0,0)`. -/
def sZero : Nat → Pos := fun _ => (0, 0)

/-- A two-level oracle that always draws the cell `(0,0)`. -/
def oZero : Nat → Nat → Pos := fun _ _ => (0, 0)

/-- A two-level oracle whose spawn call `k` draws `(k, 0)` on every attempt. -/
def oRow : Nat → Nat → Pos := fun k _ => ((k : Int), 0)

/-- A running state with a respawn backlog of 2 and one fruit below target. -/
def gPending : SnakeGame :=
  { cellNumber := 20, fruitsCount := 5, snake := Snake.init,
    fruits := [(1, 1)], pendingSpawns := 2, gameOver := false }

/-- The spec's concrete wall scenario: board 5, fruit target 1, straight body
heading right with the head at `(4,2)`; one fruit parked away from the path. -/
def gScenarioC3 : SnakeGame :=
  { cellNumber := 5, fruitsCount := 1,
    snake := { body := [(4, 2), (3, 2), (2, 2)], direction := (1, 0), newBlock := false },
    fruits := [(0, 0)], pendingSpawns := 0, gameOver := false }

/-- An L-shaped (non-collinear) body heading right on a 10-board. -/
def gBent : SnakeGame :=
  { cellNumber := 10, fruitsCount := 5,
    snake := { body := [(5, 5), (5, 6), (4, 6)], direction := (1, 0), newBlock := false },
    fruits := [], pendingSpawns := 0, gameOver := false }

/-- The initial body, heading right, on the real 20-board, no fruit in the way. -/
def gStraight : SnakeGame :=
  { cellNumber := 20, fruitsCount := 5,
    snake := { body := [(5, 10), (4, 10), (3, 10)], direction := (1, 0), newBlock := false },
    fruits := [], pendingSpawns := 0, gameOver := false }

/-- `gStraight` with the growth flag pending. -/
def gGrow : SnakeGame :=
  { gStraight with snake := { gStraight.snake with newBlock := true } }

/-- A state whose head already sits on the single fruit. -/
def gEat : SnakeGame :=
  { cellNumber := 20, fruitsCount := 5,
    snake := { body := [(6, 10), (5, 10), (4, 10)], direction := (1, 0), newBlock := false },
    fruits := [(6, 10)], pendingSpawns := 0, gameOver := false }

/-- A terminal state. -/
def gTerminal : SnakeGame :=
  { cellNumber := 5, fruitsCount := 1, snake := Snake.init,
    fruits := [(0, 0)], pendingSpawns := 0, gameOver := true }

/-- The states reachable from a constructor call through the engine's public
entry points (`update`, `handle_key`, `reset`), over all sampling oracles. -/
inductive Reachable : SnakeGame → Prop where
  | new : ∀ (n : Nat) (fc : Int) (oracle : Nat → Nat → Pos),
      Reachable (SnakeGame.new n fc oracle)
  | update : ∀ (g : SnakeGame) (samples : Nat → Pos),
      Reachable g → Reachable (g.update samples)
  | handleKey : ∀ (g : SnakeGame) (k : Key),
      Reachable g → Reachable (g.handleKey k)
  | reset : ∀ (g : SnakeGame) (oracle : Nat → Nat → Pos),
      Reachable g → Reachable (g.reset oracle)

/-! ### Field-preservation lemmas for the tick pipeline -/

theorem checkEat_body (g : SnakeGame) : g.checkEat.snake.body = g.snake.body := by
  unfold SnakeGame.checkEat
  split <;> rfl

theorem checkEat_direction (g : SnakeGame) :
    g.checkEat.snake.direction = g.snake.direction := by
  unfold SnakeGame.checkEat
  split <;> rfl

theorem checkEat_gameOver (g : SnakeGame) : g.checkEat.gameOver = g.gameOver := by
  unfold SnakeGame.checkEat
  split <;> rfl

theorem checkEat_cellNumber (g : SnakeGame) : g.checkEat.cellNumber = g.cellNumber := by
  unfold SnakeGame.checkEat
  split <;> rfl

theorem checkEat_fruitsCount (g : SnakeGame) :
    g.checkEat.fruitsCount = g.fruitsCount := by
  unfold SnakeGame.checkEat
  split <;> rfl

theorem checkFail_snake (g : SnakeGame) : g.checkFail.snake = g.snake := by
  unfold SnakeGame.checkFail
  split_ifs <;> rfl

theorem checkFail_fruits (g : SnakeGame) : g.checkFail.fruits = g.fruits := by
  unfold SnakeGame.checkFail
  split_ifs <;> rfl

theorem checkFail_pendingSpawns (g : SnakeGame) :
    g.checkFail.pendingSpawns = g.pendingSpawns := by
  unfold SnakeGame.checkFail
  split_ifs <;> rfl

theorem checkFail_cellNumber (g : SnakeGame) :
    g.checkFail.cellNumber = g.cellNumber := by
  unfold SnakeGame.checkFail
  split_ifs <;> rfl

theorem checkFail_fruitsCount (g : SnakeGame) :
    g.checkFail.fruitsCount = g.fruitsCount := by
  unfold SnakeGame.checkFail
  split_ifs <;> rfl

theorem spawnOne_snake (g : SnakeGame) (s : Nat → Pos) :
    (g.spawnOne s).snake = g.snake := rfl

theorem spawnOne_gameOver (g : SnakeGame) (s : Nat → Pos) :
    (g.spawnOne s).gameOver = g.gameOver := rfl

theorem spawnOne_cellNumber (g : SnakeGame) (s : Nat → Pos) :
    (g.spawnOne s).cellNumber = g.cellNumber := rfl

theorem spawnOne_fruitsCount (g : SnakeGame) (s : Nat → Pos) :
    (g.spawnOne s).fruitsCount = g.fruitsCount := rfl

theorem spawnOne_pendingSpawns (g : SnakeGame) (s : Nat → Pos) :
    (g.spawnOne s).pendingSpawns = g.pendingSpawns := rfl

theorem spawnOne_fruits_length (g : SnakeGame) (s : Nat → Pos) :
    (g.spawnOne s).fruits.length = g.fruits.length + 1 := by
  simp [SnakeGame.spawnOne]

theorem process_gameOver (g : SnakeGame) (s : Nat → Pos) :
    (g.processPendingSpawns s).gameOver = g.gameOver := by
  simp only [SnakeGame.processPendingSpawns]
  split_ifs <;> rfl

theorem process_snake (g : SnakeGame) (s : Nat → Pos) :
    (g.processPendingSpawns s).snake = g.snake := by
  simp only [SnakeGame.processPendingSpawns]
  split_ifs <;> rfl

theorem process_cellNumber (g : SnakeGame) (s : Nat → Pos) :
    (g.processPendingSpawns s).cellNumber = g.cellNumber := by
  simp only [SnakeGame.processPendingSpawns]
  split_ifs <;> rfl

theorem process_fruitsCount (g : SnakeGame) (s : Nat → Pos) :
    (g.processPendingSpawns s).fruitsCount = g.fruitsCount := by
  simp only [SnakeGame.processPendingSpawns]
  split_ifs <;> rfl


/-! ### The rejection-sampling loop -/

theorem spawnLoop_zero (occ : List Pos) (s : Nat → Pos) (i : Nat) (p : Pos) :
    Fruit.spawnLoop occ s i 0 p = p := rfl

theorem spawnLoop_succ (occ : List Pos) (s : Nat → Pos) (i fuel : Nat) (p : Pos) :
    Fruit.spawnLoop occ s i (fuel + 1) p =
      if s i ∈ occ then Fruit.spawnLoop occ s (i + 1) fuel p else s i := rfl

/-- Either every attempt of the window is occupied and the loop falls back to
the incoming position, or the result is some free sampled cell of the window. -/
theorem spawnLoop_spec (occ : List Pos) (s : Nat → Pos) :
    ∀ (fuel i : Nat) (p : Pos),
      (Fruit.spawnLoop occ s i fuel p = p ∧ ∀ j, i ≤ j → j < i + fuel → s j ∈ occ) ∨
      ∃ j, i ≤ j ∧ j < i + fuel ∧ Fruit.spawnLoop occ s i fuel p = s j ∧ s j ∉ occ := by
  intro fuel
  induction fuel with
  | zero =>
    intro i p
    exact Or.inl ⟨rfl, fun j h1 h2 => absurd h2 (by omega)⟩
  | succ f ih =>
    intro i p
    rw [spawnLoop_succ]
    by_cases h : s i ∈ occ
    · rw [if_pos h]
      rcases ih (i + 1) p with ⟨he, hall⟩ | ⟨j, hj1, hj2, he, hfree⟩
      · refine Or.inl ⟨he, fun j hj1 hj2 => ?_⟩
        rcases Nat.eq_or_lt_of_le hj1 with rfl | hlt
        · exact h
        · exact hall j hlt (by omega)
      · exact Or.inr ⟨j, by omega, by omega, he, hfree⟩
    · rw [if_neg h]
      exact Or.inr ⟨i, Nat.le_refl i, by omega, rfl, h⟩

/-- The spawned cell is free, or the fruit keeps its previous position. -/
theorem spawn_free_or_prev (n : Nat) (occ : List Pos) (s : Nat → Pos) (p : Pos) :
    Fruit.spawn n occ s p ∉ occ ∨ Fruit.spawn n occ s p = p := by
  rcases spawnLoop_spec occ s (n * n + 200) 0 p with ⟨he, _⟩ | ⟨j, _, _, he, hfree⟩
  · exact Or.inr he
  · rw [Fruit.spawn, he]
    exact Or.inl hfree

/-- If the very first draw is free, it is the spawned cell. -/
theorem spawn_first_free (n : Nat) (occ : List Pos) (s : Nat → Pos) (p : Pos)
    (h : s 0 ∉ occ) : Fruit.spawn n occ s p = s 0 := by
  rw [Fruit.spawn, show n * n + 200 = (n * n + 199) + 1 from rfl, spawnLoop_succ, if_neg h]

/-- C2 (amended): a spawned fruit never lands on an occupied cell, except that
when every one of the `board_size² + 200` sampled attempts is occupied the
fruit keeps its previous position, which may itself be occupied. -/
theorem claim2_spawn_avoids_occupied (n : Nat) (occ : List Pos) (s : Nat → Pos) (p : Pos) :
    Fruit.spawn n occ s p ∉ occ ∨
      (Fruit.spawn n occ s p = p ∧ ∀ j, j < n * n + 200 → s j ∈ occ) := by
  rcases spawnLoop_spec occ s (n * n + 200) 0 p with ⟨he, hall⟩ | ⟨j, _, _, he, hfree⟩
  · exact Or.inr ⟨he, fun j hj => hall j (Nat.zero_le j) (by omega)⟩
  · rw [Fruit.spawn, he]
    exact Or.inl hfree

/-- C2 (counterexample): board 2, occupied set `{(0,0)}` of size 1 < 4 = total
cell count, previous position `(0,0)`, and an in-range sampling outcome that
draws `(0,0)` every time: the resulting position lies in the occupied set. -/
theorem claim2_counterexample :
    ([((0 : Int), (0 : Int))] : List Pos).length < 2 * 2 ∧
    Fruit.spawn 2 [((0 : Int), (0 : Int))] sZero (0, 0) ∈
      ([((0 : Int), (0 : Int))] : List Pos) := by
  constructor
  · decide
  · decide

theorem claim2_witness :
    Fruit.spawn 2 [((0 : Int), (0 : Int))] (fun _ => (1, 1)) (0, 0) ∉
        ([((0 : Int), (0 : Int))] : List Pos) ∨
      (Fruit.spawn 2 [((0 : Int), (0 : Int))] (fun _ => (1, 1)) (0, 0) = (0, 0) ∧
        ∀ j, j < 2 * 2 + 200 →
          (fun _ => ((1 : Int), (1 : Int))) j ∈ ([((0 : Int), (0 : Int))] : List Pos)) :=
  claim2_spawn_avoids_occupied 2 [(0, 0)] (fun _ => (1, 1)) (0, 0)

/-- C8: the spawn loop runs at most `board_size² + 200` attempts and always
terminates: if every attempt in that window lands on an occupied cell the fruit
keeps its previous position and no error is raised, and in every case the
result is either the previous position or one of the sampled cells of the
window.  (The occupied set is consumed read-only: `Fruit.spawn` is a pure
function of it.) -/
theorem claim8_spawn_attempt_bound :
    (∀ (n : Nat) (occ : List Pos) (s : Nat → Pos) (p : Pos),
      (∀ i, i < n * n + 200 → s i ∈ occ) → Fruit.spawn n occ s p = p) ∧
    (∀ (n : Nat) (occ : List Pos) (s : Nat → Pos) (p : Pos),
      Fruit.spawn n occ s p = p ∨
        ∃ i, i < n * n + 200 ∧ Fruit.spawn n occ s p = s i ∧ s i ∉ occ) := by
  constructor
  · intro n occ s p hall
    rcases spawnLoop_spec occ s (n * n + 200) 0 p with ⟨he, _⟩ | ⟨j, _, hj2, _, hfree⟩
    · exact he
    · exact absurd (hall j (by omega)) hfree
  · intro n occ s p
    rcases spawnLoop_spec occ s (n * n + 200) 0 p with ⟨he, _⟩ | ⟨j, _, hj2, he, hfree⟩
    · exact Or.inl he
    · exact Or.inr ⟨j, by omega, he, hfree⟩

theorem claim8_witness :
    Fruit.spawn 1 [((0 : Int), (0 : Int))] sZero (3, 3) = (3, 3) :=
  claim8_spawn_attempt_bound.1 1 [(0, 0)] sZero (3, 3) (fun i _ => by simp [sZero])

/-! ### Terminal state -/

theorem update_of_gameOver (g : SnakeGame) (s : Nat → Pos) (h : g.gameOver = true) :
    g.update s = g := by
  simp [SnakeGame.update, h]

theorem handleKey_of_gameOver (g : SnakeGame) (k : Key) (h : g.gameOver = true) :
    g.handleKey k = g := by
  simp [SnakeGame.handleKey, h]

/-- C6: `game_over` is terminal: once it is true, `update()` and `handle_key`
return the state entirely unchanged; only `reset()` rebuilds the state. -/
theorem claim6_game_over_is_terminal (g : SnakeGame) (s : Nat → Pos) (k : Key)
    (h : g.gameOver = true) : g.update s = g ∧ g.handleKey k = g :=
  ⟨update_of_gameOver g s h, handleKey_of_gameOver g k h⟩

theorem claim6_witness :
    gTerminal.gameOver = true ∧
      gTerminal.update sZero = gTerminal ∧ gTerminal.handleKey Key.up = gTerminal :=
  ⟨rfl, (claim6_game_over_is_terminal gTerminal sZero Key.up rfl).1,
    (claim6_game_over_is_terminal gTerminal sZero Key.up rfl).2⟩

/-! ### Collision checks -/

theorem checkFail_oob (g : SnakeGame)
    (h : ¬ inBoundsPos g.cellNumber (g.snake.body.headD (0, 0))) :
    g.checkFail.gameOver = true := by
  rw [SnakeGame.checkFail, if_pos h]

theorem checkFail_id (g : SnakeGame)
    (h1 : inBoundsPos g.cellNumber (g.snake.body.headD (0, 0)))
    (h2 : g.snake.body.headD (0, 0) ∉ g.snake.body.tail) :
    g.checkFail = g := by
  rw [SnakeGame.checkFail, if_neg (not_not_intro h1), if_neg h2]

theorem update_snake_body (g : SnakeGame) (s : Nat → Pos) (h : g.gameOver = false) :
    (g.update s).snake.body = g.snake.move.body := by
  simp only [SnakeGame.update, h, Bool.false_eq_true, if_false]
  rw [process_snake, checkFail_snake, checkEat_body]

theorem update_gameOver_eq (g : SnakeGame) (s : Nat → Pos) (h : g.gameOver = false) :
    (g.update s).gameOver =
      (SnakeGame.checkFail (SnakeGame.checkEat { g with snake := g.snake.move })).gameOver := by
  simp only [SnakeGame.update, h, Bool.false_eq_true, if_false]
  rw [process_gameOver]

/-! ### The initial-spawn loop -/

theorem spawnInitialLoop_zero (g : SnakeGame) (oracle : Nat → Nat → Pos) (i : Nat) :
    SnakeGame.spawnInitialLoop g oracle i 0 = g := rfl

theorem spawnInitialLoop_succ (g : SnakeGame) (oracle : Nat → Nat → Pos) (i k : Nat) :
    SnakeGame.spawnInitialLoop g oracle i (k + 1) =
      SnakeGame.spawnInitialLoop (g.spawnOne (oracle i)) oracle (i + 1) k := rfl

theorem spawnInitialLoop_snake (oracle : Nat → Nat → Pos) :
    ∀ (k i : Nat) (g : SnakeGame),
      (SnakeGame.spawnInitialLoop g oracle i k).snake = g.snake := by
  intro k
  induction k with
  | zero => intro i g; rfl
  | succ k ih =>
    intro i g
    rw [spawnInitialLoop_succ, ih, spawnOne_snake]

theorem spawnInitialLoop_gameOver (oracle : Nat → Nat → Pos) :
    ∀ (k i : Nat) (g : SnakeGame),
      (SnakeGame.spawnInitialLoop g oracle i k).gameOver = g.gameOver := by
  intro k
  induction k with
  | zero => intro i g; rfl
  | succ k ih =>
    intro i g
    rw [spawnInitialLoop_succ, ih, spawnOne_gameOver]

theorem spawnInitialLoop_pendingSpawns (oracle : Nat → Nat → Pos) :
    ∀ (k i : Nat) (g : SnakeGame),
      (SnakeGame.spawnInitialLoop g oracle i k).pendingSpawns = g.pendingSpawns := by
  intro k
  induction k with
  | zero => intro i g; rfl
  | succ k ih =>
    intro i g
    rw [spawnInitialLoop_succ, ih, spawnOne_pendingSpawns]

theorem spawnInitialLoop_cellNumber (oracle : Nat → Nat → Pos) :
    ∀ (k i : Nat) (g : SnakeGame),
      (SnakeGame.spawnInitialLoop g oracle i k).cellNumber = g.cellNumber := by
  intro k
  induction k with
  | zero => intro i g; rfl
  | succ k ih =>
    intro i g
    rw [spawnInitialLoop_succ, ih, spawnOne_cellNumber]

theorem spawnInitialLoop_fruitsCount (oracle : Nat → Nat → Pos) :
    ∀ (k i : Nat) (g : SnakeGame),
      (SnakeGame.spawnInitialLoop g oracle i k).fruitsCount = g.fruitsCount := by
  intro k
  induction k with
  | zero => intro i g; rfl
  | succ k ih =>
    intro i g
    rw [spawnInitialLoop_succ, ih, spawnOne_fruitsCount]

theorem spawnInitialLoop_fruits_length (oracle : Nat → Nat → Pos) :
    ∀ (k i : Nat) (g : SnakeGame),
      (SnakeGame.spawnInitialLoop g oracle i k).fruits.length = g.fruits.length + k := by
  intro k
  induction k with
  | zero => intro i g; rfl
  | succ k ih =>
    intro i g
    rw [spawnInitialLoop_succ, ih, spawnOne_fruits_length]
    omega

theorem fresh_snake (n fc : Nat) (oracle : Nat → Nat → Pos) :
    (SnakeGame.fresh n fc oracle).snake = Snake.init :=
  spawnInitialLoop_snake oracle fc 0 _

theorem fresh_gameOver (n fc : Nat) (oracle : Nat → Nat → Pos) :
    (SnakeGame.fresh n fc oracle).gameOver = false :=
  spawnInitialLoop_gameOver oracle fc 0 _

theorem fresh_pendingSpawns (n fc : Nat) (oracle : Nat → Nat → Pos) :
    (SnakeGame.fresh n fc oracle).pendingSpawns = 0 :=
  spawnInitialLoop_pendingSpawns oracle fc 0 _

theorem fresh_cellNumber (n fc : Nat) (oracle : Nat → Nat → Pos) :
    (SnakeGame.fresh n fc oracle).cellNumber = n :=
  spawnInitialLoop_cellNumber oracle fc 0 _

theorem fresh_fruitsCount (n fc : Nat) (oracle : Nat → Nat → Pos) :
    (SnakeGame.fresh n fc oracle).fruitsCount = fc :=
  spawnInitialLoop_fruitsCount oracle fc 0 _

theorem fresh_fruits_length (n fc : Nat) (oracle : Nat → Nat → Pos) :
    (SnakeGame.fresh n fc oracle).fruits.length = fc := by
  rw [SnakeGame.fresh, spawnInitialLoop_fruits_length]
  simp

/-- C3: (i) whenever a tick actually runs and the head cell after the move is
out of `[0, board_size)` in either coordinate, the tick ends with
`game_over = true`; (ii) the wall verdict is reached from the head position
alone, before and independently of the self-collision scan of `body[1:]`;
(iii) the spec's concrete scenario — board 5, body `[(4,2),(3,2),(2,2)]`,
heading `(1,0)` — is game over after one `update()`. -/
theorem claim3_wall_termination :
    (∀ (g : SnakeGame) (s : Nat → Pos), g.gameOver = false →
      ¬ inBoundsPos g.cellNumber (g.snake.move.body.headD (0, 0)) →
      (g.update s).gameOver = true) ∧
    (∀ g : SnakeGame,
      ¬ inBoundsPos g.cellNumber (g.snake.body.headD (0, 0)) →
      g.checkFail.gameOver = true) ∧
    (gScenarioC3.update sZero).isGameOver = true := by
  refine ⟨?_, checkFail_oob, by decide⟩
  intro g s h0 hoob
  rw [update_gameOver_eq g s h0]
  apply checkFail_oob
  rw [checkEat_body, checkEat_cellNumber]
  exact hoob

theorem claim3_witness : (gScenarioC3.update sZero).gameOver = true :=
  claim3_wall_termination.1 gScenarioC3 sZero rfl (by decide)

/-- C10: collision detection looks only at the head cell: (i) a tick can set
`game_over` only because the moved head is out of bounds or equals a later
body cell; (ii) when the head is in bounds and off the rest of the body,
`_check_fail` changes nothing, whatever out-of-bounds cells the tail may hold;
(iii) on every board of size at most 10 the constructor's fixed initial body
`[(5,10),(4,10),(3,10)]` contains out-of-bounds cells, yet the game starts
with `game_over = false`. -/
theorem claim10_collision_is_head_only :
    (∀ (g : SnakeGame) (s : Nat → Pos), g.gameOver = false →
      (g.update s).gameOver = true →
      ¬ inBoundsPos g.cellNumber (g.snake.move.body.headD (0, 0)) ∨
        g.snake.move.body.headD (0, 0) ∈ g.snake.move.body.tail) ∧
    (∀ g : SnakeGame,
      inBoundsPos g.cellNumber (g.snake.body.headD (0, 0)) →
      g.snake.body.headD (0, 0) ∉ g.snake.body.tail →
      g.checkFail = g) ∧
    (∀ (n : Nat) (oracle : Nat → Nat → Pos), n ≤ 10 →
      (SnakeGame.new n 5 oracle).gameOver = false ∧
        ∃ p ∈ (SnakeGame.new n 5 oracle).snake.body, ¬ inBoundsPos n p) := by
  refine ⟨?_, checkFail_id, ?_⟩
  · intro g s h0 hover
    by_cases hb : inBoundsPos g.cellNumber (g.snake.move.body.headD (0, 0))
    · by_cases ht : g.snake.move.body.headD (0, 0) ∈ g.snake.move.body.tail
      · exact Or.inr ht
      · exfalso
        rw [update_gameOver_eq g s h0] at hover
        rw [checkFail_id _ ?_ ?_, checkEat_gameOver] at hover
        · simp at hover
          exact absurd hover.symm (by simpa using h0.symm)
        · rw [checkEat_body, checkEat_cellNumber]
          exact hb
        · rw [checkEat_body]
          exact ht
    · exact Or.inl hb
  · intro n oracle hn
    refine ⟨fresh_gameOver n _ oracle, (5, 10), ?_, ?_⟩
    · rw [SnakeGame.new, fresh_snake]
      simp [Snake.init]
    · simp only [inBoundsPos]
      intro h
      omega

/-- C7: while the game runs and the heading is one of the five legal values,
`handle_key` applies the requested heading immediately, except that a request
equal to the exact opposite of the current heading is ignored; the zero
heading rejects nothing. -/
theorem claim7_reversal_guard (g : SnakeGame) (k : Key)
    (h0 : g.gameOver = false)
    (hd : g.snake.direction ∈
      ([(0, 0), (1, 0), (-1, 0), (0, 1), (0, -1)] : List Pos)) :
    (g.handleKey k).snake.direction =
      if keyDir k = negPos g.snake.direction then g.snake.direction
      else keyDir k := by
  simp only [List.mem_cons, List.not_mem_nil, or_false] at hd
  rcases hd with h | h | h | h | h <;>
    cases k <;>
      simp [SnakeGame.handleKey, keyDir, negPos, h0, h, Prod.ext_iff]

theorem claim7_witness :
    (gStraight.handleKey Key.left).snake.direction = (1, 0) ∧
      (gStraight.handleKey Key.up).snake.direction = (0, -1) ∧
      (gStraight.handleKey Key.down).snake.direction = (0, 1) := by
  have h1 := claim7_reversal_guard gStraight Key.left rfl (by decide)
  have h2 := claim7_reversal_guard gStraight Key.up rfl (by decide)
  have h3 := claim7_reversal_guard gStraight Key.down rfl (by decide)
  refine ⟨?_, ?_, ?_⟩
  · rw [h1]
    decide
  · rw [h2]
    decide
  · rw [h3]
    decide

/-! ### Movement -/

theorem headD_dropLast {l : List Pos} (h : 2 ≤ l.length) (d : Pos) :
    l.dropLast.headD d = l.headD d := by
  match l with
  | [] => simp at h
  | [a] => simp at h
  | a :: b :: t => simp

theorem move_body_of_not_growing (s : Snake) (hd : s.direction ≠ (0, 0))
    (hg : s.newBlock = false) (hl : 2 ≤ s.body.length) :
    s.move.body = addPos (s.body.headD (0, 0)) s.direction :: s.body.dropLast := by
  rw [Snake.move, if_neg hd]
  simp only [hg, Bool.false_eq_true, if_false]
  rw [headD_dropLast hl]

theorem move_body_of_growing (s : Snake) (hd : s.direction ≠ (0, 0))
    (hg : s.newBlock = true) :
    s.move.body = addPos (s.body.headD (0, 0)) s.direction :: s.body := by
  rw [Snake.move, if_neg hd]
  simp only [hg, if_true]

/-- Along a body that is collinear with the heading (each cell is the next cell
translated by the heading), translating every cell is the same as prepending
the advanced head and dropping the tail. -/
theorem map_addPos_of_chain (d : Pos) :
    ∀ l : List Pos, l ≠ [] →
      List.Chain' (fun a b => addPos b d = a) l →
      l.map (fun c => addPos c d) = addPos (l.headD (0, 0)) d :: l.dropLast
  | [], h, _ => absurd rfl h
  | [a], _, _ => by simp
  | a :: b :: t, _, hc => by
    rw [List.chain'_cons] at hc
    have ih := map_addPos_of_chain d (b :: t) (by simp) hc.2
    simp only [List.map_cons, List.headD_cons] at ih ⊢
    rw [ih, hc.1]
    simp

/-- C1 (amended): with a non-zero heading, no pending growth and no collision,
one `update()` prepends `head + heading` and drops the last cell — the head
advances by the heading vector, every other cell moves into its predecessor's
place, and the body length is preserved.  The spec's stronger phrasing "every
body cell is translated by the heading" holds exactly when the body is
collinear with the heading (third conjunct); the counterexample shows it fails
for a bent body. -/
theorem claim1_update_shifts_body (g : SnakeGame) (s : Nat → Pos)
    (h0 : g.gameOver = false) (hg : g.snake.newBlock = false)
    (hd : g.snake.direction ≠ (0, 0)) (hl : 3 ≤ g.snake.body.length)
    (_hsafe : (g.update s).gameOver = false) :
    (g.update s).snake.body =
      addPos (g.snake.body.headD (0, 0)) g.snake.direction :: g.snake.body.dropLast ∧
    (g.update s).snake.body.length = g.snake.body.length ∧
    (List.Chain' (fun a b => addPos b g.snake.direction = a) g.snake.body →
      (g.update s).snake.body =
        g.snake.body.map (fun c => addPos c g.snake.direction)) := by
  have hb : (g.update s).snake.body =
      addPos (g.snake.body.headD (0, 0)) g.snake.direction :: g.snake.body.dropLast := by
    rw [update_snake_body g s h0, move_body_of_not_growing g.snake hd hg (by omega)]
  refine ⟨hb, ?_, ?_⟩
  · rw [hb]
    simp only [List.length_cons, List.length_dropLast]
    omega
  · intro hchain
    rw [hb, map_addPos_of_chain g.snake.direction g.snake.body (by intro h; rw [h] at hl; simp at hl) hchain]

/-- C1 (counterexample): an L-shaped body heading right, with no growth
pending, no fruit and no collision on the tick; after one `update()` the cell
at index 1 is `(5,5)` (the old head), not the translated `(6,6)`: `update()`
does not translate every body cell by the heading vector. -/
theorem claim1_counterexample :
    gBent.gameOver = false ∧ gBent.snake.newBlock = false ∧
      gBent.snake.direction ≠ (0, 0) ∧ (gBent.update sZero).gameOver = false ∧
      (gBent.update sZero).snake.body ≠
        gBent.snake.body.map (fun c => addPos c gBent.snake.direction) := by
  refine ⟨rfl, rfl, by decide, by decide, by decide⟩

theorem claim1_witness :
    (gStraight.update sZero).snake.body =
      addPos (gStraight.snake.body.headD (0, 0)) gStraight.snake.direction ::
        gStraight.snake.body.dropLast ∧
      (gStraight.update sZero).snake.body.length = gStraight.snake.body.length := by
  have h := claim1_update_shifts_body gStraight sZero rfl rfl (by decide) (by decide)
    (by decide)
  exact ⟨h.1, h.2.1⟩

/-! ### Eating -/

theorem findIdxAux_of_mem (target : Pos) :
    ∀ (l : List Pos) (i0 : Nat), target ∈ l →
      ∃ pre post : List Pos,
        l = pre ++ target :: post ∧ target ∉ pre ∧
        findIdxAux target l i0 = some (i0 + pre.length) ∧
        l.eraseIdx pre.length = pre ++ post := by
  intro l
  induction l with
  | nil => intro i0 h; simp at h
  | cons p rest ih =>
    intro i0 h
    by_cases hp : p = target
    · subst hp
      refine ⟨[], rest, by simp, by simp, ?_, by simp⟩
      simp [findIdxAux]
    · have hm : target ∈ rest := by
        rcases List.mem_cons.mp h with h1 | h1
        · exact absurd h1.symm hp
        · exact h1
      obtain ⟨pre, post, hl, hnp, hf, he⟩ := ih (i0 + 1) hm
      refine ⟨p :: pre, post, by simp [hl], ?_, ?_, ?_⟩
      · simp only [List.mem_cons, not_or]
        exact ⟨fun hq => hp hq.symm, hnp⟩
      · rw [findIdxAux, if_neg hp, hf]
        congr 1
        simp
        omega
      · simp only [List.length_cons, List.eraseIdx_cons_succ, he]
        rfl

/-- C4: (i) when the head sits on some fruit's cell, `_check_eat` removes
exactly the first such fruit (all cells before it are kept, as is everything
after it), sets the growth flag, and increments `pending_spawns` by one — so at
most one fruit is eaten per tick; (ii) once the growth flag is set, the next
tick that runs without collision grows the body by exactly one cell and the
score by exactly one. -/
theorem claim4_eat_and_growth :
    (∀ g : SnakeGame, g.snake.body.headD (0, 0) ∈ g.fruits →
      ∃ pre post : List Pos,
        g.fruits = pre ++ g.snake.body.headD (0, 0) :: post ∧
        g.snake.body.headD (0, 0) ∉ pre ∧
        g.checkEat = { g with fruits := pre ++ post,
                              snake := { g.snake with newBlock := true },
                              pendingSpawns := g.pendingSpawns + 1 } ∧
        g.checkEat.fruits.length + 1 = g.fruits.length) ∧
    (∀ (g : SnakeGame) (s : Nat → Pos), g.gameOver = false →
      g.snake.newBlock = true → g.snake.direction ≠ (0, 0) →
      3 ≤ g.snake.body.length →
      (g.update s).gameOver = false →
      (g.update s).snake.body.length = g.snake.body.length + 1 ∧
      (g.update s).getScore = g.getScore + 1) := by
  constructor
  · intro g hmem
    obtain ⟨pre, post, hl, hnp, hf, he⟩ := findIdxAux_of_mem _ g.fruits 0 hmem
    rw [Nat.zero_add] at hf
    have heq : g.checkEat = { g with fruits := pre ++ post,
                                     snake := { g.snake with newBlock := true },
                                     pendingSpawns := g.pendingSpawns + 1 } := by
      unfold SnakeGame.checkEat
      simp only [hf, he]
    refine ⟨pre, post, hl, hnp, heq, ?_⟩
    rw [heq, hl]
    simp
    omega
  · intro g s h0 hg hd hl hsafe
    have hb : (g.update s).snake.body =
        addPos (g.snake.body.headD (0, 0)) g.snake.direction :: g.snake.body := by
      rw [update_snake_body g s h0, move_body_of_growing g.snake hd hg]
    constructor
    · rw [hb]
      simp
    · rw [SnakeGame.getScore, SnakeGame.getScore, hb]
      simp only [List.length_cons]
      have h1 : (0 : Int) ≤ (g.snake.body.length : Int) - 3 := by omega
      have h2 : (0 : Int) ≤ ((g.snake.body.length + 1 : Nat) : Int) - 3 := by omega
      rw [max_eq_right h1, max_eq_right h2]
      push_cast
      ring

theorem claim4_witness :
    gEat.checkEat.fruits.length + 1 = gEat.fruits.length ∧
      (gGrow.update sZero).snake.body.length = gGrow.snake.body.length + 1 ∧
      (gGrow.update sZero).getScore = gGrow.getScore + 1 := by
  have ha := claim4_eat_and_growth.1 gEat (by decide)
  obtain ⟨pre, post, _, _, _, hlen⟩ := ha
  have hb := claim4_eat_and_growth.2 gGrow sZero rfl rfl (by decide) (by decide) (by decide)
  exact ⟨hlen, hb.1, hb.2⟩

/-! ### Respawn bookkeeping -/

theorem length_eraseIdx_le : ∀ (l : List Pos) (i : Nat), (l.eraseIdx i).length ≤ l.length := by
  intro l
  induction l with
  | nil => intro i; simp
  | cons a t ih =>
    intro i
    cases i with
    | zero => simp
    | succ j =>
      simp only [List.eraseIdx_cons_succ, List.length_cons]
      exact Nat.succ_le_succ (ih j)

theorem checkEat_fruits_length_le (g : SnakeGame) :
    g.checkEat.fruits.length ≤ g.fruits.length := by
  unfold SnakeGame.checkEat
  split
  · exact Nat.le_refl _
  · simpa using length_eraseIdx_le g.fruits _

theorem process_fruits_length_le (g : SnakeGame) (s : Nat → Pos) :
    (g.processPendingSpawns s).fruits.length ≤ g.fruits.length + 1 := by
  simp only [SnakeGame.processPendingSpawns]
  split_ifs <;> simp [SnakeGame.spawnOne]

theorem process_fruits_le_target (g : SnakeGame) (s : Nat → Pos)
    (h : g.fruits.length ≤ g.fruitsCount) :
    (g.processPendingSpawns s).fruits.length ≤ (g.processPendingSpawns s).fruitsCount := by
  simp only [SnakeGame.processPendingSpawns]
  split_ifs with h1 h2 h3 <;> simp_all [SnakeGame.spawnOne] <;> omega

theorem process_backlog_cleared (g : SnakeGame) (s : Nat → Pos)
    (h : (g.processPendingSpawns s).fruitsCount ≤ (g.processPendingSpawns s).fruits.length) :
    (g.processPendingSpawns s).pendingSpawns = 0 := by
  simp only [SnakeGame.processPendingSpawns] at h ⊢
  split_ifs at h ⊢ with h1 h2 h3 <;> simp_all [SnakeGame.spawnOne] <;> omega

theorem update_of_running (g : SnakeGame) (s : Nat → Pos) (h : g.gameOver = false) :
    g.update s =
      SnakeGame.processPendingSpawns
        (SnakeGame.checkFail (SnakeGame.checkEat { g with snake := g.snake.move }))
        s := by
  simp only [SnakeGame.update, h, Bool.false_eq_true, if_false]

theorem update_fruits_le_target (g : SnakeGame) (s : Nat → Pos)
    (h : g.fruits.length ≤ g.fruitsCount) :
    (g.update s).fruits.length ≤ (g.update s).fruitsCount := by
  cases hg : g.gameOver
  · rw [update_of_running g s hg]
    apply process_fruits_le_target
    rw [checkFail_fruits, checkFail_fruitsCount, checkEat_fruitsCount]
    have h2 := checkEat_fruits_length_le ({ g with snake := g.snake.move } : SnakeGame)
    have h3 : ({ g with snake := g.snake.move } : SnakeGame).fruits = g.fruits := rfl
    have h4 : ({ g with snake := g.snake.move } : SnakeGame).fruitsCount = g.fruitsCount := rfl
    rw [h3] at h2
    rw [h4]
    omega
  · rw [update_of_gameOver g s hg]
    exact h

theorem update_backlog_cleared (g : SnakeGame) (s : Nat → Pos) (hg : g.gameOver = false)
    (h : (g.update s).fruitsCount ≤ (g.update s).fruits.length) :
    (g.update s).pendingSpawns = 0 := by
  rw [update_of_running g s hg] at h ⊢
  exact process_backlog_cleared _ s h

theorem handleKey_fields (g : SnakeGame) (k : Key) :
    (g.handleKey k).fruits = g.fruits ∧ (g.handleKey k).fruitsCount = g.fruitsCount ∧
      (g.handleKey k).pendingSpawns = g.pendingSpawns ∧
      (g.handleKey k).cellNumber = g.cellNumber ∧
      (g.handleKey k).gameOver = g.gameOver := by
  cases k <;> simp only [SnakeGame.handleKey] <;> split_ifs <;> simp

/-- C5: (i) a tick never adds more than one fruit; (ii) at the respawn step,
a positive backlog with the board below target spawns exactly one fruit and
leaves the backlog at most one less; (iii) in every reachable state the fruit
count never exceeds `target_fruit_count`, and whenever the target is reached
the backlog is zero. -/
theorem claim5_respawn_rate_and_cap :
    (∀ (g : SnakeGame) (s : Nat → Pos),
      (g.update s).fruits.length ≤ g.fruits.length + 1) ∧
    (∀ (g : SnakeGame) (s : Nat → Pos),
      0 < g.pendingSpawns → g.fruits.length < g.fruitsCount →
      (g.processPendingSpawns s).fruits.length = g.fruits.length + 1 ∧
      (g.processPendingSpawns s).pendingSpawns ≤ g.pendingSpawns - 1) ∧
    (∀ g : SnakeGame, Reachable g →
      g.fruits.length ≤ g.fruitsCount ∧
      (g.fruitsCount ≤ g.fruits.length → g.pendingSpawns = 0)) := by
  refine ⟨?_, ?_, ?_⟩
  · intro g s
    cases hg : g.gameOver
    · rw [update_of_running g s hg]
      have h1 := process_fruits_length_le
        (SnakeGame.checkFail (SnakeGame.checkEat { g with snake := g.snake.move })) s
      rw [checkFail_fruits] at h1
      have h2 := checkEat_fruits_length_le ({ g with snake := g.snake.move } : SnakeGame)
      have h3 : ({ g with snake := g.snake.move } : SnakeGame).fruits = g.fruits := rfl
      rw [h3] at h2
      omega
    · rw [update_of_gameOver g s hg]
      omega
  · intro g s hp hlen
    constructor
    · simp only [SnakeGame.processPendingSpawns]
      rw [if_neg (by omega), if_pos hlen]
      split_ifs <;> simp [SnakeGame.spawnOne]
    · simp only [SnakeGame.processPendingSpawns]
      rw [if_neg (by omega), if_pos hlen]
      split_ifs <;> simp [SnakeGame.spawnOne] <;> omega
  · intro g hr
    induction hr with
    | new n fc oracle =>
      constructor
      · rw [SnakeGame.new, fresh_fruits_length, fresh_fruitsCount]
      · intro _
        rw [SnakeGame.new, fresh_pendingSpawns]
    | update g s hr ih =>
      refine ⟨update_fruits_le_target g s ih.1, ?_⟩
      cases hg : g.gameOver
      · intro h
        exact update_backlog_cleared g s hg h
      · rw [update_of_gameOver g s hg]
        exact ih.2
    | handleKey g k hr ih =>
      obtain ⟨hf, hfc, hp, _, _⟩ := handleKey_fields g k
      rw [hf, hfc, hp]
      exact ih
    | reset g oracle hr ih =>
      constructor
      · rw [SnakeGame.reset, fresh_fruits_length, fresh_fruitsCount]
      · intro _
        rw [SnakeGame.reset, fresh_pendingSpawns]

theorem claim5_witness :
    ((gPending.processPendingSpawns sZero).fruits.length = gPending.fruits.length + 1 ∧
      (gPending.processPendingSpawns sZero).pendingSpawns ≤ gPending.pendingSpawns - 1) ∧
      (SnakeGame.new 10 3 oZero).fruits.length ≤ (SnakeGame.new 10 3 oZero).fruitsCount :=
  ⟨claim5_respawn_rate_and_cap.2.1 gPending sZero (by decide) (by decide),
    (claim5_respawn_rate_and_cap.2.2 _ (Reachable.new 10 3 oZero)).1⟩

/-! ### Initial fruit placement -/

theorem spawnInitialLoop_fruits_off_body (oracle : Nat → Nat → Pos) :
    ∀ (k i : Nat) (g : SnakeGame),
      ((0, 0) : Pos) ∉ g.snake.body →
      (∀ p ∈ g.fruits, p ∉ g.snake.body) →
      ∀ p ∈ (SnakeGame.spawnInitialLoop g oracle i k).fruits, p ∉ g.snake.body := by
  intro k
  induction k with
  | zero =>
    intro i g h0 hf
    simpa [spawnInitialLoop_zero] using hf
  | succ k ih =>
    intro i g h0 hf
    rw [spawnInitialLoop_succ]
    have hsnake : (g.spawnOne (oracle i)).snake = g.snake := spawnOne_snake g (oracle i)
    have h0' : ((0, 0) : Pos) ∉ (g.spawnOne (oracle i)).snake.body := by
      rw [hsnake]
      exact h0
    have hf' : ∀ p ∈ (g.spawnOne (oracle i)).fruits,
        p ∉ (g.spawnOne (oracle i)).snake.body := by
      rw [hsnake]
      intro p hp
      simp only [SnakeGame.spawnOne, List.mem_append, List.mem_singleton] at hp
      rcases hp with hp | hp
      · exact hf p hp
      · subst hp
        rcases spawn_free_or_prev g.cellNumber g.occupiedCells (oracle i) (0, 0) with
          hfree | hprev
        · intro hb
          exact hfree (by simp only [SnakeGame.occupiedCells, List.mem_append]; exact Or.inl hb)
        · rw [hprev]
          exact h0
    have hcl := ih (i + 1) (g.spawnOne (oracle i)) h0' hf'
    rw [hsnake] at hcl
    exact hcl

theorem fresh_fruits_off_body (n fc : Nat) (oracle : Nat → Nat → Pos) :
    ∀ p ∈ (SnakeGame.fresh n fc oracle).fruits, p ∉ Snake.init.body := by
  have h := spawnInitialLoop_fruits_off_body oracle fc 0
    { cellNumber := n, fruitsCount := fc, snake := Snake.init, fruits := [],
      pendingSpawns := 0, gameOver := false }
    (by show ((0, 0) : Pos) ∉ Snake.init.body; decide)
    (by simp)
  exact h

/-- When every spawn call's first draw is a cell that is fresh (off the body,
off all earlier first draws), the initial-spawn loop appends exactly those
first draws, in call order. -/
theorem spawnInitialLoop_fruits_of_fresh_draws (oracle : Nat → Nat → Pos) :
    ∀ (k i : Nat) (g : SnakeGame),
      (∀ j, j < k → oracle (i + j) 0 ∉ g.snake.body) →
      (∀ j, j < k → oracle (i + j) 0 ∉ g.fruits) →
      (∀ j j', j' < j → j < k → oracle (i + j') 0 ≠ oracle (i + j) 0) →
      (SnakeGame.spawnInitialLoop g oracle i k).fruits =
        g.fruits ++ (List.range k).map (fun j => oracle (i + j) 0) := by
  intro k
  induction k with
  | zero =>
    intro i g _ _ _
    simp [spawnInitialLoop_zero]
  | succ k ih =>
    intro i g hb hf hd
    rw [spawnInitialLoop_succ]
    have hq : Fruit.spawn g.cellNumber g.occupiedCells (oracle i) (0, 0) = oracle i 0 := by
      apply spawn_first_free
      have h1 : oracle (i + 0) 0 ∉ g.snake.body := hb 0 (by omega)
      have h2 : oracle (i + 0) 0 ∉ g.fruits := hf 0 (by omega)
      rw [Nat.add_zero] at h1 h2
      simp only [SnakeGame.occupiedCells, List.mem_append]
      rintro (h | h)
      · exact h1 h
      · exact h2 h
    have hfr : (g.spawnOne (oracle i)).fruits = g.fruits ++ [oracle i 0] := by
      simp only [SnakeGame.spawnOne]
      rw [hq]
    have hb' : ∀ j, j < k → oracle (i + 1 + j) 0 ∉ (g.spawnOne (oracle i)).snake.body := by
      intro j hj
      rw [spawnOne_snake]
      have he : i + 1 + j = i + (j + 1) := by omega
      rw [he]
      exact hb (j + 1) (by omega)
    have hf' : ∀ j, j < k → oracle (i + 1 + j) 0 ∉ (g.spawnOne (oracle i)).fruits := by
      intro j hj
      rw [hfr]
      have he : i + 1 + j = i + (j + 1) := by omega
      rw [he]
      simp only [List.mem_append, List.mem_singleton]
      rintro (h | h)
      · exact hf (j + 1) (by omega) h
      · exact hd (j + 1) 0 (by omega) (by omega) (by rw [Nat.add_zero]; exact h.symm)
    have hd' : ∀ j j', j' < j → j < k →
        oracle (i + 1 + j') 0 ≠ oracle (i + 1 + j) 0 := by
      intro j j' hj' hj
      have he1 : i + 1 + j' = i + (j' + 1) := by omega
      have he2 : i + 1 + j = i + (j + 1) := by omega
      rw [he1, he2]
      exact hd (j + 1) (j' + 1) (by omega) (by omega)
    rw [ih (i + 1) (g.spawnOne (oracle i)) hb' hf' hd', hfr, List.append_assoc]
    congr 1
    rw [List.range_succ_eq_map, List.map_cons, List.map_map, List.singleton_append]
    congr 1
    apply List.map_congr_left
    intro j _
    simp only [Function.comp_apply]
    congr 1
    omega

/-- C9 (amended): construction clamps the fruit target to `max(1, fruit_count)`
(so it is at least 1), and construction and `reset()` each establish the same
initial state: a length-3 snake with heading `(0,0)` and no growth pending,
`game_over` false, `pending_spawns` 0, and exactly `target_fruit_count` fruits,
none on the snake body.  The fruit cells are pairwise distinct whenever the
sampling succeeds for every spawn (e.g. whenever each spawn call's first draw
is fresh); the counterexample shows that under exhausted sampling two fruits
can share the fallback cell `(0,0)`. -/
theorem claim9_construction_and_reset :
    (∀ (n : Nat) (fc : Int) (oracle : Nat → Nat → Pos),
      SnakeGame.new n fc oracle = SnakeGame.fresh n (max 1 fc).toNat oracle ∧
        (SnakeGame.new n fc oracle).fruitsCount = (max 1 fc).toNat ∧
        1 ≤ (SnakeGame.new n fc oracle).fruitsCount) ∧
    (∀ (g : SnakeGame) (oracle : Nat → Nat → Pos),
      g.reset oracle = SnakeGame.fresh g.cellNumber g.fruitsCount oracle) ∧
    (∀ (n fc : Nat) (oracle : Nat → Nat → Pos),
      (SnakeGame.fresh n fc oracle).snake = Snake.init ∧
        Snake.init.body.length = 3 ∧ Snake.init.direction = (0, 0) ∧
        Snake.init.newBlock = false ∧
        (SnakeGame.fresh n fc oracle).gameOver = false ∧
        (SnakeGame.fresh n fc oracle).pendingSpawns = 0 ∧
        (SnakeGame.fresh n fc oracle).fruits.length = fc ∧
        ∀ p ∈ (SnakeGame.fresh n fc oracle).fruits, p ∉ Snake.init.body) ∧
    (∀ (n fc : Nat) (oracle : Nat → Nat → Pos),
      (∀ k, k < fc → oracle k 0 ∉ Snake.init.body) →
      (∀ k, k < fc → ∀ j, j < k → oracle j 0 ≠ oracle k 0) →
      (SnakeGame.fresh n fc oracle).fruits =
          (List.range fc).map (fun k => oracle k 0) ∧
        (SnakeGame.fresh n fc oracle).fruits.Nodup) := by
  refine ⟨?_, ?_, ?_, ?_⟩
  · intro n fc oracle
    refine ⟨rfl, ?_, ?_⟩
    · rw [SnakeGame.new, fresh_fruitsCount]
    · rw [SnakeGame.new, fresh_fruitsCount]
      have h1 : (1 : Int) ≤ max 1 fc := le_max_left 1 fc
      omega
  · intro g oracle
    rfl
  · intro n fc oracle
    exact ⟨fresh_snake n fc oracle, rfl, rfl, rfl, fresh_gameOver n fc oracle,
      fresh_pendingSpawns n fc oracle, fresh_fruits_length n fc oracle,
      fresh_fruits_off_body n fc oracle⟩
  · intro n fc oracle hb hd
    have hmap : (SnakeGame.fresh n fc oracle).fruits =
        (List.range fc).map (fun k => oracle k 0) := by
      rw [SnakeGame.fresh]
      have h := spawnInitialLoop_fruits_of_fresh_draws oracle fc 0
        { cellNumber := n, fruitsCount := fc, snake := Snake.init, fruits := [],
          pendingSpawns := 0, gameOver := false }
        (by intro j hj; simpa using hb j hj)
        (by intro j hj; simp)
        (by intro j j' hj' hj; simpa using hd j hj j' hj')
      rw [h]
      simp
    refine ⟨hmap, ?_⟩
    rw [hmap]
    apply List.Nodup.map_on ?_ (List.nodup_range fc)
    intro x hx y hy hxy
    simp only [List.mem_range] at hx hy
    by_contra hne
    rcases Nat.lt_or_ge x y with hlt | hge
    · exact hd y hy x hlt hxy
    · have hlt : y < x := by omega
      exact hd x hx y hlt hxy.symm

/-- C9 (counterexample): `SnakeGame(2, 2)` with an in-range sampling outcome
that always draws `(0,0)`: the first fruit lands on `(0,0)`, the second spawn
exhausts all `2² + 200` attempts against the now-occupied `(0,0)` and keeps the
default position, so the two fruits share the cell `(0,0)` — construction does
not always place the fruits at pairwise-distinct cells. -/
theorem claim9_counterexample :
    (SnakeGame.new 2 2 oZero).fruits = [(0, 0), (0, 0)] ∧
      ¬ (SnakeGame.new 2 2 oZero).fruits.Nodup := by
  constructor
  · decide
  · decide

theorem claim9_witness :
    (SnakeGame.fresh 5 2 oRow).fruits = [(0, 0), (1, 0)] ∧
      (SnakeGame.fresh 5 2 oRow).fruits.Nodup := by
  have h := claim9_construction_and_reset.2.2.2 5 2 oRow (by decide) (by decide)
  refine ⟨?_, h.2⟩
  rw [h.1]
  decide

theorem claim10_witness :
    (SnakeGame.new 10 5 oZero).gameOver = false ∧
      ∃ p ∈ (SnakeGame.new 10 5 oZero).snake.body, ¬ inBoundsPos 10 p :=
  claim10_collision_is_head_only.2.2 10 oZero (by omega)
